import Mathlib

/-
Verification of the blog-post API (`app/api.py`): an in-memory post store
(list / get-by-id / create / update / delete), an append-only user store
(signup / login), and a signed-token service.

Handlers are embedded as pure functions over explicit store lists; the
module-level mutable lists `posts` and `users` become explicit arguments
and returned values.
-/

set_option autoImplicit false

namespace Api

/-- A stored post record: `{"id": ..., "title": ..., "content": ...}`.
Python ints are modelled as `Int` (path parameter `id: int` may be negative). -/
structure Post where
  id : Int
  title : String
  content : String
deriving DecidableEq, Repr

/-- A stored user record: `UserSchema` / `UserLoginSchema` carry
`email` and `password` strings. -/
structure User where
  email : String
  password : String
deriving DecidableEq, Repr

/-- The response of `get_single_post`: a `{"data": post}` body, an
`{"error": msg}` body, or the implicit Python `None` when the handler
falls off the end of its loop without returning. -/
inductive PostResp where
  | data (p : Post)
  | err (msg : String)
  | noBody
deriving DecidableEq, Repr

/-- The `for post in posts` loop of `get_single_post`: returns the first
post whose `id` equals the requested id, falling through to `None`. -/
def scanPosts (id : Int) : List Post → PostResp
  | [] => PostResp.noBody
  | p :: ps => if p.id = id then PostResp.data p else scanPosts id ps

/-- Handler `GET /posts`: returns `{"data": posts}`. -/
def get_posts (posts : List Post) : List Post :=
  posts

/-- Handler `GET /posts/{id}`: short-circuits to the error body when
`id > len(posts)`, otherwise scans the list for the first id match. -/
def get_single_post (posts : List Post) (id : Int) : PostResp :=
  if id > (posts.length : Int) then
    PostResp.err "No such post with the supplied ID."
  else
    scanPosts id posts

/-- Handler `POST /posts`: sets `post.id = len(posts) + 1`, appends the
post, and returns the `{"data": "post added."}` message. -/
def add_post (posts : List Post) (title content : String) : String × List Post :=
  ("post added.", posts ++ [⟨(posts.length : Int) + 1, title, content⟩])

/-- The `for post in posts` loop of `update_post`: overwrite `title` and
`content` of the first post whose id matches, or report no match. -/
def updateScan (id : Int) (title content : String) : List Post → Option (List Post)
  | [] => none
  | p :: ps =>
    if p.id = id then some ({ p with title := title, content := content } :: ps)
    else Option.map (fun ps2 => p :: ps2) (updateScan id title content ps)

/-- Handler `PUT /posts/{id}`: returns the updated-or-not-found message
and the (possibly mutated) store. -/
def update_post (posts : List Post) (id : Int) (title content : String) :
    String × List Post :=
  match updateScan id title content posts with
  | some ps => (s!"post with id {id} has been updated.", ps)
  | none => (s!"post with id {id} not found.", posts)

/-- Handler `DELETE /posts/{id}`: finds the first post whose id matches,
then `posts.remove(post)` removes the first element equal to it. -/
def delete_post (posts : List Post) (id : Int) : String × List Post :=
  match List.find? (fun p => p.id == id) posts with
  | some p => (s!"post with id {id} has been removed.", posts.erase p)
  | none => (s!"post with id {id} not found.", posts)

/-- Helper `check_user`: linear scan over `users`, true on the first
record whose email and password both match. -/
def check_user (users : List User) (email password : String) : Bool :=
  match users with
  | [] => false
  | u :: us =>
    if u.email == email && u.password == password then true
    else check_user us email password

/-- Modelled from the spec: the token payload produced by the Token
Service (`app/auth/auth_handler.py` is not under `src/`). It embeds the
email identity and an expiry instant. -/
structure TokenPayload where
  email : String
  expires : Nat
deriving DecidableEq, Repr

/-- Modelled from the spec: the signature over a payload made with the
server secret. The standard signature algorithm is modelled symbolically:
the signature is the pair of the secret and the signed payload, so
verification succeeds exactly when both match. -/
def mac (secret : String) (p : TokenPayload) : String × TokenPayload :=
  (secret, p)

/-- Modelled from the spec: an opaque signed token binding an email
identity — a payload together with its signature. -/
structure Token where
  payload : TokenPayload
  sig : String × TokenPayload
deriving DecidableEq, Repr

/-- Modelled from the spec: the response object carrying an issued token,
shape `{"access_token": token}`. -/
structure TokenResponse where
  access_token : Token
deriving DecidableEq, Repr

/-- Modelled from the spec: `signJWT(email)` produces a signed token
embedding the email identity and an expiry (`now + expiry`), signed with
the server secret, wrapped as `{"access_token": token}`. -/
def signJWT (secret : String) (expiry now : Nat) (email : String) : TokenResponse :=
  ⟨⟨⟨email, now + expiry⟩, mac secret ⟨email, now + expiry⟩⟩⟩

/-- Modelled from the spec: `decodeJWT(token)` verifies signature and
expiry; on success returns the embedded payload, on failure (bad
signature or expired) returns an invalid/empty result, never raising. -/
def decodeJWT (secret : String) (now : Nat) (t : Token) : Option TokenPayload :=
  if t.sig = mac secret t.payload ∧ t.payload.expires ≥ now then some t.payload
  else none

/-- Handler `POST /user/signup`: appends the user record unconditionally
and returns `signJWT(user.email)`. -/
def create_user (secret : String) (expiry now : Nat) (users : List User)
    (user : User) : List User × TokenResponse :=
  (users ++ [user], signJWT secret expiry now user.email)

/-- The response of `user_login`: a token response or the
`{"error": "Wrong login details!"}` body. -/
inductive LoginResp where
  | token (t : TokenResponse)
  | error (msg : String)
deriving DecidableEq, Repr

/-- Handler `POST /user/login`: issues a token when `check_user`
matches, otherwise returns the error body. -/
def user_login (secret : String) (expiry now : Nat) (users : List User)
    (data : User) : LoginResp :=
  if check_user users data.email data.password then
    LoginResp.token (signJWT secret expiry now data.email)
  else
    LoginResp.error "Wrong login details!"

/-- The module-level mutable state of `app/api.py`: the `posts` and
`users` lists. -/
structure AppState where
  posts : List Post
  users : List User
deriving DecidableEq, Repr

/-- The state at process start: `posts` seeded with one post, `users`
empty. -/
def initialState : AppState :=
  ⟨[⟨1, "Pancake", "Lorem Ipsum ..."⟩], []⟩

/-- One handler invocation, as a transition on the module-level state.
Read-only handlers leave the state unchanged. -/
inductive Step : AppState → AppState → Prop
  | read_root (s : AppState) : Step s s
  | gets (s : AppState) : Step s s
  | get_single (s : AppState) (id : Int) : Step s s
  | add (s : AppState) (title content : String) :
      Step s ⟨(add_post s.posts title content).2, s.users⟩
  | update (s : AppState) (id : Int) (title content : String) :
      Step s ⟨(update_post s.posts id title content).2, s.users⟩
  | delete (s : AppState) (id : Int) :
      Step s ⟨(delete_post s.posts id).2, s.users⟩
  | signup (s : AppState) (secret : String) (expiry now : Nat) (user : User) :
      Step s ⟨s.posts, (create_user secret expiry now s.users user).1⟩
  | login (s : AppState) (data : User) : Step s s

/-- States reachable from process start by a sequence of handler
invocations. -/
inductive Reachable : AppState → Prop
  | init : Reachable initialState
  | step {s t : AppState} : Reachable s → Step s t → Reachable t

/-! ## Helper lemmas -/

theorem scanPosts_append_of_no_match (id : Int) (l1 l2 : List Post)
    (h : ∀ p ∈ l1, p.id ≠ id) :
    scanPosts id (l1 ++ l2) = scanPosts id l2 := by
  induction l1 with
  | nil => rfl
  | cons p ps ih =>
    simp only [List.cons_append, scanPosts]
    rw [if_neg (h p (List.mem_cons_self p ps))]
    exact ih fun q hq => h q (List.mem_cons_of_mem p hq)

/-- From the seed state, adding a post ("A", "a") and then deleting post 1
leaves the store holding exactly one post, whose id is 2. -/
theorem reachable_collision : Reachable ⟨[⟨2, "A", "a"⟩], []⟩ := by
  have h1 : Reachable ⟨[⟨1, "Pancake", "Lorem Ipsum ..."⟩, ⟨2, "A", "a"⟩], []⟩ := by
    have e : (add_post initialState.posts "A" "a").2 =
        [⟨1, "Pancake", "Lorem Ipsum ..."⟩, ⟨2, "A", "a"⟩] := by decide
    have := Reachable.step Reachable.init (Step.add initialState "A" "a")
    rwa [e] at this
  have e2 : (delete_post [(⟨1, "Pancake", "Lorem Ipsum ..."⟩ : Post), ⟨2, "A", "a"⟩] 1).2 =
      [⟨2, "A", "a"⟩] := by decide
  have h2 := Reachable.step h1
    (Step.delete ⟨[⟨1, "Pancake", "Lorem Ipsum ..."⟩, ⟨2, "A", "a"⟩], []⟩ 1)
  rw [e2] at h2
  exact h2

/-- The loop of `get_single_post` returns the first id match of the list
(as `List.find?` computes it), or the empty body when nothing matches. -/
theorem scanPosts_eq_find? (id : Int) (posts : List Post) :
    scanPosts id posts =
      match List.find? (fun q => q.id == id) posts with
      | some p => PostResp.data p
      | none => PostResp.noBody := by
  induction posts with
  | nil => rfl
  | cons p ps ih =>
    by_cases hp : p.id = id
    · rw [scanPosts, if_pos hp, List.find?_cons_of_pos _ (by simpa using hp)]
    · rw [scanPosts, if_neg hp, List.find?_cons_of_neg _ (by simpa using hp)]
      exact ih

/-! ## Claims -/

/-- C2: `add_post` assigns the new post the id `len(posts) + 1`, and ids
are not globally unique: some reachable state holds a post whose id is
already `count + 1`, so the store right after a create holds duplicate
ids. -/
theorem C2_id_assignment_not_unique :
    (∀ (posts : List Post) (title content : String),
        (add_post posts title content).2 =
          posts ++ [⟨(posts.length : Int) + 1, title, content⟩]) ∧
    (∃ s : AppState, Reachable s ∧ ∃ title content : String,
        ¬ (((add_post s.posts title content).2.map Post.id).Nodup)) := by
  refine ⟨fun posts title content => rfl, ⟨⟨[⟨2, "A", "a"⟩], []⟩, reachable_collision, "B", "b", ?_⟩⟩
  decide

/-- C1 counterexample: from the reachable state whose store is the single
post `{id 2, "A", "a"}`, creating a post ("B", "b") assigns it id 2 (the
new post is the last element), but fetching id 2 returns the OLD post
("A", "a"), not the created one. -/
theorem C1_counterexample :
    Reachable ⟨[⟨2, "A", "a"⟩], []⟩ ∧
    (add_post [(⟨2, "A", "a"⟩ : Post)] "B" "b").2.getLast? = some ⟨2, "B", "b"⟩ ∧
    get_single_post (add_post [(⟨2, "A", "a"⟩ : Post)] "B" "b").2 2 =
      PostResp.data ⟨2, "A", "a"⟩ :=
  ⟨reachable_collision, by decide, by decide⟩

/-- C1 (amended): for every title and content and every post-store state
in which no existing post already has id `count + 1`, creating a post and
then fetching the id assigned to it returns exactly that title and
content. -/
theorem C1_create_then_get (posts : List Post) (title content : String)
    (h : ∀ p ∈ posts, p.id ≠ (posts.length : Int) + 1) :
    get_single_post (add_post posts title content).2 ((posts.length : Int) + 1) =
      PostResp.data ⟨(posts.length : Int) + 1, title, content⟩ := by
  have hlen : ((add_post posts title content).2.length : Int) = (posts.length : Int) + 1 := by
    simp [add_post]
  rw [get_single_post, if_neg (by rw [hlen]; omega)]
  rw [add_post]
  rw [scanPosts_append_of_no_match _ _ _ h]
  simp [scanPosts]

/-- C1 witness: the amended theorem applied at the seed store. -/
theorem C1_witness :
    (∀ p ∈ [(⟨1, "Pancake", "Lorem Ipsum ..."⟩ : Post)],
        p.id ≠ (([(⟨1, "Pancake", "Lorem Ipsum ..."⟩ : Post)].length : Int) + 1)) ∧
    get_single_post
        (add_post [(⟨1, "Pancake", "Lorem Ipsum ..."⟩ : Post)] "T" "C").2 2 =
      PostResp.data ⟨2, "T", "C"⟩ :=
  ⟨by decide, C1_create_then_get [⟨1, "Pancake", "Lorem Ipsum ..."⟩] "T" "C" (by decide)⟩

/-- C3: `get_single_post` yields either the first stored post whose id
equals the requested id or a not-found outcome (the error body, or the
empty body when an id within bounds matches nothing); when the id exceeds
the post count the error body is returned without consulting the list
contents (any store of the same length gives the same answer); and when
the id does not exceed the count the list is scanned, even for a deleted
id. -/
theorem C3_get_single_post (posts : List Post) (id : Int) :
    ((∃ p, get_single_post posts id = PostResp.data p ∧
        List.find? (fun q => q.id == id) posts = some p) ∨
      get_single_post posts id = PostResp.err "No such post with the supplied ID." ∨
      (get_single_post posts id = PostResp.noBody ∧
        List.find? (fun q => q.id == id) posts = none)) ∧
    (id > (posts.length : Int) →
      ∀ posts2 : List Post, posts2.length = posts.length →
        get_single_post posts2 id = PostResp.err "No such post with the supplied ID.") ∧
    (id ≤ (posts.length : Int) → get_single_post posts id = scanPosts id posts) := by
  refine ⟨?_, ?_, ?_⟩
  · by_cases hgt : id > (posts.length : Int)
    · right; left
      rw [get_single_post, if_pos hgt]
    · rw [get_single_post, if_neg hgt, scanPosts_eq_find?]
      cases hfind : List.find? (fun q => q.id == id) posts with
      | some q => exact Or.inl ⟨q, rfl, rfl⟩
      | none => exact Or.inr (Or.inr ⟨rfl, rfl⟩)
  · intro hgt posts2 hlen
    rw [get_single_post, if_pos (by rw [hlen]; exact hgt)]
  · intro hle
    rw [get_single_post, if_neg (by omega)]

/-- C3 witness: the theorem applied at the seed store with the in-range
id 1 and, for the short-circuit conjunct, at the out-of-range id 5. -/
theorem C3_witness :
    ((1 : Int) ≤ (([(⟨1, "Pancake", "Lorem Ipsum ..."⟩ : Post)].length : Int)) ∧
      get_single_post [(⟨1, "Pancake", "Lorem Ipsum ..."⟩ : Post)] 1 =
        scanPosts 1 [(⟨1, "Pancake", "Lorem Ipsum ..."⟩ : Post)]) ∧
    ((5 : Int) > (([(⟨1, "Pancake", "Lorem Ipsum ..."⟩ : Post)].length : Int)) ∧
      get_single_post [(⟨2, "A", "a"⟩ : Post)] 5 =
        PostResp.err "No such post with the supplied ID.") :=
  ⟨⟨by decide,
    (C3_get_single_post [⟨1, "Pancake", "Lorem Ipsum ..."⟩] 1).2.2 (by decide)⟩,
   ⟨by decide,
    (C3_get_single_post [⟨1, "Pancake", "Lorem Ipsum ..."⟩] 5).2.1 (by decide)
      [⟨2, "A", "a"⟩] (by decide)⟩⟩

/-- C4: when a post with the requested id exists, `delete_post` removes
the first such post (one fewer occurrence of it in subsequent `list()`
results, and — when the store ids are duplicate-free — no post with that
id remains); deleting an id with no matching post returns the not-found
response and leaves the store exactly unchanged. -/
theorem C4_delete_post (posts : List Post) (id : Int) :
    (∀ p, List.find? (fun q => q.id == id) posts = some p →
        delete_post posts id =
          (s!"post with id {id} has been removed.", posts.erase p) ∧
        List.count p (get_posts (delete_post posts id).2) + 1 =
          List.count p (get_posts posts)) ∧
    ((posts.map Post.id).Nodup →
        ∀ q ∈ get_posts (delete_post posts id).2, q.id ≠ id) ∧
    ((∀ p ∈ posts, p.id ≠ id) →
        delete_post posts id = (s!"post with id {id} not found.", posts)) := by
  refine ⟨?_, ?_, ?_⟩
  · intro p hfind
    have heq : delete_post posts id =
        (s!"post with id {id} has been removed.", posts.erase p) := by
      rw [delete_post, hfind]
    refine ⟨heq, ?_⟩
    have hmem : p ∈ posts := List.mem_of_find?_eq_some hfind
    have hpos : 0 < List.count p posts := List.count_pos_iff.mpr hmem
    rw [heq]
    simp only [get_posts, List.count_erase_self]
    omega
  · intro hnodup q hq hqid
    cases hfind : List.find? (fun r => r.id == id) posts with
    | none =>
      rw [get_posts, delete_post, hfind] at hq
      exact absurd (beq_iff_eq.mpr hqid) (by simpa using List.find?_eq_none.mp hfind q hq)
    | some p =>
      rw [get_posts, delete_post, hfind] at hq
      have hpid : p.id = id := by simpa using List.find?_some hfind
      have hqmem : q ≠ p ∧ q ∈ posts :=
        ((List.Nodup.of_map Post.id hnodup).mem_erase_iff).mp hq
      exact hqmem.1 (List.inj_on_of_nodup_map hnodup hqmem.2
        (List.mem_of_find?_eq_some hfind) (by rw [hqid, hpid]))
  · intro h
    rw [delete_post, List.find?_eq_none.mpr fun x hx => by simpa using h x hx]

/-- C4 witness: the theorem applied at the seed store, deleting the
existing id 1 and the absent id 5. -/
theorem C4_witness :
    delete_post [(⟨1, "Pancake", "Lorem Ipsum ..."⟩ : Post)] 1 =
      ("post with id 1 has been removed.", []) ∧
    delete_post [(⟨1, "Pancake", "Lorem Ipsum ..."⟩ : Post)] 5 =
      ("post with id 5 not found.", [⟨1, "Pancake", "Lorem Ipsum ..."⟩]) :=
  ⟨(((C4_delete_post [⟨1, "Pancake", "Lorem Ipsum ..."⟩] 1).1
      ⟨1, "Pancake", "Lorem Ipsum ..."⟩ (by decide)).1).trans (by decide),
   (C4_delete_post [⟨1, "Pancake", "Lorem Ipsum ..."⟩] 5).2.2 (by decide)⟩

/-- The loop of `update_post`: it fails exactly on stores with no
matching id, and on the first match at index `j` it returns the store
with position `j` overwritten (same id, new title and content). -/
theorem updateScan_spec (id : Int) (title content : String) (posts : List Post) :
    (updateScan id title content posts = none ∧ ∀ p ∈ posts, p.id ≠ id) ∨
    (∃ j p, posts[j]? = some p ∧ p.id = id ∧
      (∀ i, i < j → ∀ q, posts[i]? = some q → q.id ≠ id) ∧
      updateScan id title content posts = some (posts.set j ⟨p.id, title, content⟩)) := by
  induction posts with
  | nil => exact Or.inl ⟨rfl, by simp⟩
  | cons p ps ih =>
    by_cases hp : p.id = id
    · refine Or.inr ⟨0, p, List.getElem?_cons_zero, hp,
        fun i hi => absurd hi (Nat.not_lt_zero i), ?_⟩
      rw [updateScan, if_pos hp, List.set_cons_zero]
    · rcases ih with ⟨h1, h2⟩ | ⟨j, q, hget, hqid, hfirst, heq⟩
      · refine Or.inl ⟨?_, ?_⟩
        · rw [updateScan, if_neg hp, h1]
          rfl
        · intro r hr
          rcases List.mem_cons.mp hr with rfl | hr2
          · exact hp
          · exact h2 r hr2
      · refine Or.inr ⟨j + 1, q, by simpa using hget, hqid, ?_, ?_⟩
        · intro i hi r hr
          match i with
          | 0 =>
            rw [List.getElem?_cons_zero] at hr
            cases Option.some.inj hr
            exact hp
          | k + 1 =>
            rw [List.getElem?_cons_succ] at hr
            exact hfirst k (Nat.lt_of_succ_lt_succ hi) r hr
        · rw [updateScan, if_neg hp, heq, List.set_cons_succ]
          rfl

/-- C5: `update_post` on an id with no matching post returns the
not-found response and leaves the store exactly unchanged; when the first
match sits at index `j`, it returns the updated message and the store
with position `j` overwritten to carry the new title and content (same
id), the post count unchanged and every other position untouched. -/
theorem C5_update_post (posts : List Post) (id : Int) (title content : String) :
    ((∀ p ∈ posts, p.id ≠ id) →
        update_post posts id title content =
          (s!"post with id {id} not found.", posts)) ∧
    (∀ j p, posts[j]? = some p → p.id = id →
        (∀ i, i < j → ∀ q, posts[i]? = some q → q.id ≠ id) →
        update_post posts id title content =
          (s!"post with id {id} has been updated.",
            posts.set j ⟨p.id, title, content⟩) ∧
        (update_post posts id title content).2.length = posts.length ∧
        (update_post posts id title content).2[j]? = some ⟨p.id, title, content⟩ ∧
        (∀ i, i ≠ j → (update_post posts id title content).2[i]? = posts[i]?)) := by
  constructor
  · intro h
    rcases updateScan_spec id title content posts with ⟨h1, _⟩ | ⟨j, q, hget, hqid, _, _⟩
    · rw [update_post, h1]
    · exact absurd hqid (h q (List.getElem?_mem hget))
  · intro j p hget hpid hfirst
    rcases updateScan_spec id title content posts with ⟨_, h2⟩ | ⟨j2, q, hget2, hqid2, hfirst2, heq2⟩
    · exact absurd hpid (h2 p (List.getElem?_mem hget))
    · have hjj : j2 = j := by
        rcases Nat.lt_trichotomy j2 j with hlt | heq | hgt
        · exact absurd hqid2 (hfirst j2 hlt q hget2)
        · exact heq
        · exact absurd hpid (hfirst2 j hgt p hget)
      subst hjj
      rw [hget2] at hget
      cases Option.some.inj hget
      have hres : update_post posts id title content =
          (s!"post with id {id} has been updated.",
            posts.set j2 ⟨p.id, title, content⟩) := by
        rw [update_post, heq2]
      have hlt : j2 < posts.length := (List.getElem?_eq_some_iff.mp hget2).1
      refine ⟨hres, ?_, ?_, ?_⟩
      · rw [hres, List.length_set]
      · rw [hres]
        exact List.getElem?_set_self hlt
      · intro i hi
        rw [hres]
        exact List.getElem?_set_ne (Ne.symm hi)

/-- C5 witness: the theorem applied at the seed store, updating the
absent id 5 and the existing id 1 (first match at index 0). -/
theorem C5_witness :
    update_post [(⟨1, "Pancake", "Lorem Ipsum ..."⟩ : Post)] 5 "T" "C" =
      ("post with id 5 not found.", [⟨1, "Pancake", "Lorem Ipsum ..."⟩]) ∧
    update_post [(⟨1, "Pancake", "Lorem Ipsum ..."⟩ : Post)] 1 "T" "C" =
      ("post with id 1 has been updated.", [⟨1, "T", "C"⟩]) :=
  ⟨(C5_update_post [⟨1, "Pancake", "Lorem Ipsum ..."⟩] 5 "T" "C").1 (by decide),
   (((C5_update_post [⟨1, "Pancake", "Lorem Ipsum ..."⟩] 1 "T" "C").2
      0 ⟨1, "Pancake", "Lorem Ipsum ..."⟩ (by decide) (by decide)
      fun i hi => absurd hi (Nat.not_lt_zero i)).1).trans (by decide)⟩

/-- The login scan succeeds exactly when some stored record matches both
credentials. -/
theorem check_user_eq_true_iff (users : List User) (email password : String) :
    check_user users email password = true ↔
      ∃ u ∈ users, u.email = email ∧ u.password = password := by
  induction users with
  | nil => simp [check_user]
  | cons u us ih =>
    rw [check_user]
    by_cases h : (u.email == email && u.password == password) = true
    · rw [if_pos h]
      simp only [Bool.and_eq_true, beq_iff_eq] at h
      exact iff_of_true rfl ⟨u, List.mem_cons_self u us, h.1, h.2⟩
    · rw [if_neg h, ih]
      simp only [Bool.and_eq_true, beq_iff_eq] at h
      constructor
      · rintro ⟨v, hv, he, hp⟩
        exact ⟨v, List.mem_cons_of_mem u hv, he, hp⟩
      · rintro ⟨v, hv, he, hp⟩
        rcases List.mem_cons.mp hv with rfl | hv2
        · exact absurd ⟨he, hp⟩ h
        · exact ⟨v, hv2, he, hp⟩

/-- C6: `check_user` returns true exactly when some stored user record
has email and password both exactly equal to the given strings. -/
theorem C6_check_user (users : List User) (email password : String) :
    check_user users email password = true ↔
      ∃ u ∈ users, u.email = email ∧ u.password = password :=
  check_user_eq_true_iff users email password

/-- C6 witness: the characterization applied at a one-user store, in the
positive direction and (for a wrong password) the negative one. -/
theorem C6_witness :
    check_user [⟨"a@x.com", "p"⟩] "a@x.com" "p" = true ∧
    check_user [⟨"a@x.com", "p"⟩] "a@x.com" "q" ≠ true :=
  ⟨(C6_check_user [⟨"a@x.com", "p"⟩] "a@x.com" "p").mpr (by decide),
   fun h => by
    have := (C6_check_user [⟨"a@x.com", "p"⟩] "a@x.com" "q").mp h
    exact absurd this (by decide)⟩

/-- C7: `user_login` returns a token response when the supplied email and
password match some signed-up user, and otherwise returns the error body
`{"error": "Wrong login details!"}`, carrying no token. -/
theorem C7_user_login (secret : String) (expiry now : Nat) (users : List User)
    (data : User) :
    ((∃ u ∈ users, u.email = data.email ∧ u.password = data.password) →
        user_login secret expiry now users data =
          LoginResp.token (signJWT secret expiry now data.email)) ∧
    ((¬ ∃ u ∈ users, u.email = data.email ∧ u.password = data.password) →
        user_login secret expiry now users data =
          LoginResp.error "Wrong login details!") := by
  constructor
  · intro h
    rw [user_login,
      if_pos ((check_user_eq_true_iff users data.email data.password).mpr h)]
  · intro h
    rw [user_login, if_neg]
    intro hc
    exact h ((check_user_eq_true_iff users data.email data.password).mp hc)

/-- C7 witness: the theorem applied at a one-user store with the right
and with a wrong password. -/
theorem C7_witness :
    user_login "s" 600 0 [⟨"a@x.com", "p"⟩] ⟨"a@x.com", "p"⟩ =
      LoginResp.token (signJWT "s" 600 0 "a@x.com") ∧
    user_login "s" 600 0 [⟨"a@x.com", "p"⟩] ⟨"a@x.com", "q"⟩ =
      LoginResp.error "Wrong login details!" :=
  ⟨(C7_user_login "s" 600 0 [⟨"a@x.com", "p"⟩] ⟨"a@x.com", "p"⟩).1 (by decide),
   (C7_user_login "s" 600 0 [⟨"a@x.com", "p"⟩] ⟨"a@x.com", "q"⟩).2 (by decide)⟩

/-- C8: signup appends a user record unconditionally (no uniqueness
check: the count of records with the given email always grows by one,
also when that email is already present), and no handler invocation ever
removes or modifies an existing user record — along every step the old
user list is a prefix of the new one. -/
theorem C8_users_append_only :
    (∀ (secret : String) (expiry now : Nat) (users : List User) (user : User),
        (create_user secret expiry now users user).1 = users ++ [user]) ∧
    (∀ (secret : String) (expiry now : Nat) (users : List User) (user : User),
        List.countP (fun u => u.email == user.email)
            (create_user secret expiry now users user).1 =
          List.countP (fun u => u.email == user.email) users + 1) ∧
    (∀ s t : AppState, Step s t → s.users <+: t.users) := by
  refine ⟨fun _ _ _ _ _ => rfl, ?_, ?_⟩
  · intro secret expiry now users user
    show List.countP _ (users ++ [user]) = _
    rw [List.countP_append]
    simp
  · intro s t hstep
    cases hstep with
    | read_root => exact ⟨[], List.append_nil s.users⟩
    | gets => exact ⟨[], List.append_nil s.users⟩
    | get_single id => exact ⟨[], List.append_nil s.users⟩
    | add title content => exact ⟨[], List.append_nil s.users⟩
    | update id title content => exact ⟨[], List.append_nil s.users⟩
    | delete id => exact ⟨[], List.append_nil s.users⟩
    | signup secret expiry now user => exact ⟨[user], rfl⟩
    | login data => exact ⟨[], List.append_nil s.users⟩

/-- C8 witness: a duplicate signup at a one-user store, and the
prefix property applied at a concrete signup step from the start
state. -/
theorem C8_witness :
    List.countP (fun u => u.email == "a@x.com")
        (create_user "s" 600 0 [⟨"a@x.com", "p"⟩] ⟨"a@x.com", "q"⟩).1 =
      List.countP (fun u => u.email == "a@x.com") [(⟨"a@x.com", "p"⟩ : User)] + 1 ∧
    initialState.users <+:
      (AppState.mk initialState.posts
        (create_user "s" 600 0 initialState.users ⟨"a@x.com", "p"⟩).1).users :=
  ⟨C8_users_append_only.2.1 "s" 600 0 [⟨"a@x.com", "p"⟩] ⟨"a@x.com", "q"⟩,
   C8_users_append_only.2.2 initialState _
     (Step.signup initialState "s" 600 0 ⟨"a@x.com", "p"⟩)⟩

/-- C9: a token issued for email `e` decodes (before its expiry) to a
payload containing `e`; a tampered token (same signature, any other
payload) and an expired token decode to the invalid result; and decoding
is total — it always returns either the embedded payload or the invalid
result, never an error. -/
theorem C9_token_roundtrip (secret : String) (expiry now t : Nat) (email : String) :
    (t ≤ now + expiry →
        decodeJWT secret t (signJWT secret expiry now email).access_token =
          some ⟨email, now + expiry⟩) ∧
    (∀ p2 : TokenPayload,
        p2 ≠ (signJWT secret expiry now email).access_token.payload →
        decodeJWT secret t
            ⟨p2, (signJWT secret expiry now email).access_token.sig⟩ = none) ∧
    (t > now + expiry →
        decodeJWT secret t (signJWT secret expiry now email).access_token = none) ∧
    (∀ tok : Token,
        decodeJWT secret t tok = some tok.payload ∨ decodeJWT secret t tok = none) := by
  refine ⟨?_, ?_, ?_, ?_⟩
  · intro h
    rw [decodeJWT, if_pos ⟨rfl, h⟩]
    rfl
  · intro p2 hp2
    rw [decodeJWT, if_neg]
    rintro ⟨hsig, -⟩
    exact hp2 (congrArg Prod.snd hsig).symm
  · intro h
    rw [decodeJWT, if_neg]
    rintro ⟨-, hexp⟩
    exact absurd hexp (by simpa using h)
  · intro tok
    rw [decodeJWT]
    by_cases h : tok.sig = mac secret tok.payload ∧ tok.payload.expires ≥ t
    · rw [if_pos h]
      exact Or.inl rfl
    · rw [if_neg h]
      exact Or.inr rfl

/-- C9 witness: the theorem applied at a concrete secret, email and
times — a fresh decode, a tampered payload, and a late decode. -/
theorem C9_witness :
    ((0 : Nat) ≤ 0 + 600 ∧
      decodeJWT "s" 0 (signJWT "s" 600 0 "a@x.com").access_token =
        some ⟨"a@x.com", 600⟩) ∧
    decodeJWT "s" 0 ⟨⟨"evil", 600⟩, (signJWT "s" 600 0 "a@x.com").access_token.sig⟩ =
      none ∧
    ((700 : Nat) > 0 + 600 ∧
      decodeJWT "s" 700 (signJWT "s" 600 0 "a@x.com").access_token = none) :=
  ⟨⟨by decide, (C9_token_roundtrip "s" 600 0 0 "a@x.com").1 (by decide)⟩,
   (C9_token_roundtrip "s" 600 0 0 "a@x.com").2.1 ⟨"evil", 600⟩ (by decide),
   ⟨by decide, (C9_token_roundtrip "s" 600 0 700 "a@x.com").2.2.1 (by decide)⟩⟩

/-- C10: at process start the post store is not empty — it holds exactly
the seed post `{id 1, "Pancake", "Lorem Ipsum ..."}` — the first `list()`
returns exactly that post, and the first created post receives id 2. -/
theorem C10_initial_seed :
    initialState.posts ≠ [] ∧
    initialState.posts = [⟨1, "Pancake", "Lorem Ipsum ..."⟩] ∧
    get_posts initialState.posts = [⟨1, "Pancake", "Lorem Ipsum ..."⟩] ∧
    ∀ title content : String,
      (add_post initialState.posts title content).2 =
        [⟨1, "Pancake", "Lorem Ipsum ..."⟩, ⟨2, title, content⟩] :=
  ⟨by decide, rfl, rfl, fun title content => rfl⟩

end Api
